import Mathlib

/-!
# Verification of `watch_build.py` (arc-spirits-tts)

A shallow embedding of the core of `watch_build.py`: the asset-manifest
URL gathering (`gather_asset_urls`), the reachability probe (`check_url`),
the verification pipeline with its single-slot cache (`verify_assets`),
the build/decompose invocations (`run_build`, `run_decompose`), the
filesystem-change filter (`BuildHandler.should_trigger_build`), the
debounce logic (`BuildHandler.on_any_event`), and the keyboard dispatch
of `main`.

Python values flowing through the manifest are modelled by the inductive
`Json`; network effects (the manifest fetch, each URL probe, the child
process) are modelled by passing their outcomes in as explicit data, and
the side effects of the code (console prints, probes performed, cache
mutation, subprocess spawns) are returned as explicit fields of result
structures.
-/

namespace WatchBuild

/-- A JSON-like value, the shape of a parsed manifest
(`json.loads` result in `fetch_asset_manifest`): nested mappings,
sequences and scalars.  Mappings are association lists with distinct
keys (Python dicts). -/
inductive Json where
  | null : Json
  | bool (b : Bool) : Json
  | num (n : Int) : Json
  | str (s : String) : Json
  | arr (items : List Json) : Json
  | obj (fields : List (String × Json)) : Json

namespace Json

mutual

/-- Structural equality of `Json` values: the meaning of Python `==`
on parsed JSON trees (mappings compared as the key-ordered association
lists the parser produced). -/
def pyEq : Json → Json → Bool
  | .obj fs, .obj gs => pyEqFields fs gs
  | .arr us, .arr vs => pyEqList us vs
  | .str x, .str y => x == y
  | .num x, .num y => x == y
  | .bool x, .bool y => x == y
  | .null, .null => true
  | _, _ => false

/-- `pyEq` on sequences, element by element. -/
def pyEqList : List Json → List Json → Bool
  | u :: us, v :: vs => pyEq u v && pyEqList us vs
  | us, vs => us.isEmpty && vs.isEmpty

/-- `pyEq` on mapping field lists, key and value by key and value. -/
def pyEqFields : List (String × Json) → List (String × Json) → Bool
  | (k1, v1) :: fs, (k2, v2) :: gs => k1 == k2 && pyEq v1 v2 && pyEqFields fs gs
  | fs, gs => fs.isEmpty && gs.isEmpty

end

end Json

/-- `Json.beq` lifted to optional values: Python `==` where either side
may be `None` (`None == None` is `True`, `None == v` is `False`). -/
def optBeq : Option Json → Option Json → Bool
  | none, none => true
  | some a, some b => Json.pyEq a b
  | _, _ => false

/-- Python `str.startswith(pre)`. -/
def strStartsWith (s pre : String) : Bool :=
  List.isPrefixOf pre.toList s.toList

/-- Occurrence of `pat` as a contiguous subsequence, on character lists. -/
def listContainsSeq (pat : List Char) : List Char → Bool
  | [] => List.isPrefixOf pat []
  | c :: rest => List.isPrefixOf pat (c :: rest) || listContainsSeq pat rest

/-- Python `pat in s` (substring containment). -/
def strContains (s pat : String) : Bool :=
  listContainsSeq pat.toList s.toList

/-- Python `str.lower()` (ASCII lowercasing; every string it is
applied to here is ASCII). -/
def strLower (s : String) : String :=
  ⟨s.toList.map Char.toLower⟩

/-- The condition under which `gather_asset_urls`'s `walk` collects a
string scalar: `value.startswith("http") and "supabase.co" in value`. -/
def isAssetUrl (s : String) : Bool :=
  strStartsWith s "http" && strContains s "supabase.co"

mutual

/-- The `walk` recursion of `gather_asset_urls(data)`: visit every
value, skip any subtree under a key named `"schema_docs"`, and emit
each qualifying string scalar.  Emissions are listed in walk order;
the source adds them to the set `urls`, modelled below by `dedup`. -/
def gather_asset_urls : Json → List String
  | .null => []
  | .bool _ => []
  | .num _ => []
  | .str s => if isAssetUrl s then [s] else []
  | .arr items => gatherList items
  | .obj fields => gatherFields fields

/-- The `walk` loop over a sequence value. -/
def gatherList : List Json → List String
  | [] => []
  | j :: rest => gather_asset_urls j ++ gatherList rest

/-- The `walk` loop over a mapping value (`continue` on the key
`"schema_docs"`). -/
def gatherFields : List (String × Json) → List String
  | [] => []
  | (k, v) :: rest =>
      (if k = "schema_docs" then [] else gather_asset_urls v) ++ gatherFields rest

end

/-- The set `urls` that `gather_asset_urls` returns: the collected
strings with duplicates removed. -/
def asset_url_set (m : Json) : List String := (gather_asset_urls m).dedup

/-- `UrlAt s j`: the string scalar `s` occurs somewhere in `j`, at a
position that is not below any mapping key named `"schema_docs"`, and
satisfies the collection condition `isAssetUrl`.  This is the
specification-level description of which strings the extractor must
return. -/
inductive UrlAt (s : String) : Json → Prop where
  | str : isAssetUrl s = true → UrlAt s (.str s)
  | arr {items : List Json} {j : Json} :
      j ∈ items → UrlAt s j → UrlAt s (.arr items)
  | obj {fields : List (String × Json)} {k : String} {v : Json} :
      (k, v) ∈ fields → k ≠ "schema_docs" → UrlAt s v → UrlAt s (.obj fields)

/-- Python `str.endswith(suf)`. -/
def strEndsWith (s suf : String) : Bool :=
  List.isSuffixOf suf.toList s.toList

/-- The remainder of a character list after the first occurrence of
`pat`, or `none` when `pat` does not occur. -/
def afterSeq (pat : List Char) : List Char → Option (List Char)
  | [] => if pat.isEmpty then some [] else none
  | c :: rest =>
      if List.isPrefixOf pat (c :: rest) then some (List.drop pat.length (c :: rest))
      else afterSeq pat rest

/-- The host component of a URL: what stands between the `://` scheme
separator and the next `/` (empty when there is no scheme separator).
Used only to state the specification's collection predicate. -/
def urlHost (s : String) : String :=
  match afterSeq "://".toList s.toList with
  | some rest => (rest.takeWhile (fun c => !(c = '/'))).asString
  | none => ""

/-- The collection predicate as the specification words it: the string
begins with an HTTP(S) scheme and its host belongs to the project's
asset-hosting domain (`supabase.co`).  Stated to compare against the
source's actual condition `isAssetUrl`. -/
def specQualifies (s : String) : Bool :=
  (strStartsWith s "http://" || strStartsWith s "https://")
    && (urlHost s = "supabase.co" || strEndsWith (urlHost s) ".supabase.co")

/-! ## The verification pipeline (`verify_assets`) -/

/-- Association-list lookup, the semantics of Python `dict.get` on a
parsed-JSON mapping (keys are distinct, so first match suffices). -/
def lookupField : List (String × Json) → String → Option Json
  | [], _ => none
  | (k, v) :: rest, key => if k = key then some v else lookupField rest key

/-- `manifest.get("exported_at")`-style access: `none` when the key is
absent.  The fetched manifest is a mapping (§ data model); on any other
shape the accessor yields `none`. -/
def jsonGet (j : Json) (key : String) : Option Json :=
  match j with
  | .obj fields => lookupField fields key
  | _ => none

/-- One console line printed by the embedded fragment of the program.
Each constructor corresponds to one `print` call site, carrying the
data interpolated into the message. -/
inductive Msg where
  | fetchFailed
  | cachedFailedHeader (n : Nat)
  | urlLine (u : String)
  | moreLine (k : Nat)
  | noUrls
  | progress (checked total : Nat)
  | failedHeader (n : Nat)
  | okMsg (n : Nat)
  | buildSkipped
  | buildSuccess
  | buildFailed
  | buildTimedOut
  | buildErrorMsg
  deriving DecidableEq

/-- The module-level `ASSET_CHECK_CACHE` dictionary: a stored manifest
version token and a stored bad-URL list, both initially `None`. -/
structure Cache where
  exported_at : Option Json
  bad_urls : Option (List String)

/-- `ASSET_CHECK_CACHE`'s initial value. -/
def initialCache : Cache := ⟨none, none⟩

/-- Everything observable about one `verify_assets()` call: its return
value, the cache contents after the call, the URLs it probed over the
network (in order), the bad-URL list that determined a reported
failure/success (the code's `cached_bad` resp. `bad_urls` variable;
`[]` on the early-failure paths, which report no URLs), and the lines
it printed. -/
structure VerifyOut where
  result : Bool
  cache : Cache
  probed : List String
  offending : List String
  output : List Msg

/-- The failure report of `verify_assets`: a header with the count,
one line per offending URL for the first 10 (`bad_urls[:10]`), and a
`... and k more` line when more than 10 exist. -/
def badReport (header : Nat → Msg) (bad : List String) : List Msg :=
  header bad.length :: (bad.take 10).map Msg.urlLine
    ++ (if 10 < bad.length then [Msg.moreLine (bad.length - 10)] else [])

/-- The probe loop of `verify_assets`: `for index, url in
enumerate(urls, start=1)`, appending unreachable URLs to `bad_urls` and
printing a progress line whenever `index % 100 == 0`.  Returns the
accumulated bad list and the printed lines. -/
def probeLoop (probe : String → Bool) (total : Nat) : Nat → List String → List String × List Msg
  | _, [] => ([], [])
  | index, u :: rest =>
      let tail := probeLoop probe total (index + 1) rest
      ((if probe u then [] else [u]) ++ tail.1,
       (if index % 100 = 0 then [Msg.progress index total] else []) ++ tail.2)

/-- Python string `<=`: lexicographic comparison by code points, on
character lists. -/
def charListLe : List Char → List Char → Bool
  | x :: xs, ys =>
      match ys with
      | [] => false
      | y :: ys => if x = y then charListLe xs ys else decide (x < y)
  | [], _ => true

/-- `sorted(gather_asset_urls(manifest))`: the deduplicated URL set in
ascending string order. -/
def sorted_asset_urls (m : Json) : List String :=
  (asset_url_set m).insertionSort (fun a b => charListLe a.toList b.toList = true)

/-- The cache-miss path of `verify_assets` (everything from
`urls = sorted(gather_asset_urls(manifest))` down): fail on an empty
URL set, probe every sorted URL, store the new cache entry, and report. -/
def verifyFresh (manifest : Json) (exported_at : Option Json)
    (probe : String → Bool) (cache : Cache) : VerifyOut :=
  let urls := sorted_asset_urls manifest
  if urls = [] then ⟨false, cache, [], [], [Msg.noUrls]⟩
  else
    let loop := probeLoop probe urls.length 1 urls
    let newCache : Cache := ⟨exported_at, some loop.1⟩
    if loop.1 = [] then
      ⟨true, newCache, urls, loop.1, loop.2 ++ [Msg.okMsg urls.length]⟩
    else
      ⟨false, newCache, urls, loop.1, loop.2 ++ badReport Msg.failedHeader loop.1⟩

/-- `verify_assets()`.  The outcome of the manifest fetch is passed in
as `fetch` (`none` = the fetch raised), the outcome each URL probe
would have is passed in as `probe` (the value `check_url` returns for
that URL), and the cache is threaded explicitly. -/
def verify_assets (fetch : Option Json) (probe : String → Bool) (cache : Cache) : VerifyOut :=
  match fetch with
  | none => ⟨false, cache, [], [], [Msg.fetchFailed]⟩
  | some manifest =>
      let exported_at := jsonGet manifest "exported_at"
      match cache.bad_urls with
      | some cached_bad =>
          if optBeq cache.exported_at exported_at then
            if cached_bad = [] then ⟨true, cache, [], cached_bad, []⟩
            else ⟨false, cache, [], cached_bad, badReport Msg.cachedFailedHeader cached_bad⟩
          else verifyFresh manifest exported_at probe cache
      | none => verifyFresh manifest exported_at probe cache

/-! ## The reachability probe (`check_url`) -/

/-- What one `urllib.request.urlopen` attempt does: return a response
with a status, raise `urllib.error.HTTPError` with a code, or raise
some other exception (connection error, timeout, ...). -/
inductive ProbeOutcome where
  | ok (status : Nat)
  | httpError (code : Nat)
  | failed
  deriving DecidableEq

/-- `check_url(url)`.  `head` and `get` are the outcomes the HEAD and
GET requests would have; the second component records whether the GET
request was actually issued.  HEAD success returns `status < 400`;
`HTTPError` with a code other than 405 returns `False`; any other
exception returns `False`; only the 405 case falls through to the GET
request, whose success status (or any exception) decides the result. -/
def check_url (head : ProbeOutcome) (get : ProbeOutcome) : Bool × Bool :=
  match head with
  | .ok s => (decide (s < 400), false)
  | .httpError code =>
      if code = 405 then
        match get with
        | .ok s => (decide (s < 400), true)
        | _ => (false, true)
      else (false, false)
  | .failed => (false, false)

/-! ## Build and decompose invocations -/

/-- What `subprocess.run` does for the `go run main.go` child: exit
with a code and captured stderr, raise `subprocess.TimeoutExpired`, or
raise some other exception. -/
inductive ProcOutcome where
  | exited (code : Int) (stderr : String)
  | timedOut
  | procError
  deriving DecidableEq

/-- Messages and reload flag of the unconditional part of `run_build`
(the subprocess call and its reporting; on exit code 0 the
`trigger_tts_reload()` collaborator is invoked). -/
def buildStep (proc : ProcOutcome) : List Msg × Bool :=
  match proc with
  | .exited code _ => if code = 0 then ([Msg.buildSuccess], true) else ([Msg.buildFailed], false)
  | .timedOut => ([Msg.buildTimedOut], false)
  | .procError => ([Msg.buildErrorMsg], false)

/-- Everything observable about one `run_build` call: whether
`verify_assets` was consulted, whether the build subprocess was
invoked, the cache afterwards, the URLs probed, the lines printed, and
whether the TTS reload was triggered. -/
structure RunBuildOut where
  verifyConsulted : Bool
  invoked : Bool
  cache : Cache
  probed : List String
  output : List Msg
  reloadTriggered : Bool

/-- `run_build(check_assets)`.  `if check_assets and not
verify_assets(): print("Build skipped due to missing assets.");
return` — by Python short-circuiting, `verify_assets` runs only when
`check_assets` is truthy. -/
def run_build (check_assets : Bool) (fetch : Option Json) (probe : String → Bool)
    (cache : Cache) (proc : ProcOutcome) : RunBuildOut :=
  if check_assets then
    let v := verify_assets fetch probe cache
    if v.result then
      let step := buildStep proc
      ⟨true, true, v.cache, v.probed, v.output ++ step.1, step.2⟩
    else
      ⟨true, false, v.cache, v.probed, v.output ++ [Msg.buildSkipped], false⟩
  else
    let step := buildStep proc
    ⟨false, true, cache, [], step.1, step.2⟩

/-- The outcome of one `run_decompose()` call.
`refusedMissingArtifact` is the early-return path taken when the TTS
save file does not exist (no subprocess is spawned); the remaining
constructors interpret the spawned child's result as the code reports
it. -/
inductive DecomposeOutcome where
  | refusedMissingArtifact
  | success
  | failed (stderr : String)
  | timedOut
  | procError
  deriving DecidableEq

/-- `run_decompose()`.  `artifact_exists` is `output_file.exists()`;
`proc` is what the child process would do if spawned. -/
def run_decompose (artifact_exists : Bool) (proc : ProcOutcome) : DecomposeOutcome :=
  if artifact_exists then
    match proc with
    | .exited code stderr => if code = 0 then .success else .failed stderr
    | .timedOut => .timedOut
    | .procError => .procError
  else .refusedMissingArtifact

/-! ## The change filter (`BuildHandler.should_trigger_build`) -/

/-- `WATCH_PATTERNS`. -/
def WATCH_PATTERNS : List String := ["src", "objects", "modsettings", "config.json"]

/-- `WATCH_EXTENSIONS`. -/
def WATCH_EXTENSIONS : List String := [".ttslua", ".lua", ".json", ".xml"]

/-- `DEBOUNCE_SECONDS`. -/
def DEBOUNCE_SECONDS : ℚ := 1

/-- The index of the last `.` in a character list (`str.rfind('.')`,
`none` for Python's `-1`). -/
def rfindDotIdx : List Char → Option Nat
  | [] => none
  | c :: rest =>
      match rfindDotIdx rest with
      | some i => some (i + 1)
      | none => if c = '.' then some 0 else none

/-- `pathlib.PurePath.suffix` of a file name: the part from the last
dot on, but only when that dot is neither the first nor the last
character; otherwise the empty string. -/
def pySuffix (name : String) : String :=
  match rfindDotIdx name.toList with
  | some i => if 0 < i ∧ i + 1 < name.toList.length then ⟨name.toList.drop i⟩ else ""
  | none => ""

/-- Python `str(rel_path)` for a relative path given by its segments
(`"."` for an empty path, segments joined by `/` otherwise). -/
def relPathStr (parts : List String) : String :=
  match parts with
  | [] => "."
  | _ => String.intercalate "/" parts

/-- `BuildHandler.should_trigger_build(path)`.  `parts` are the
segments of `path.relative_to(PROJECT_DIR)`; the file name is the last
segment and the suffix is computed from it (ASCII lowercasing, as the
watched extensions are ASCII). -/
def should_trigger_build (parts : List String) : Bool :=
  let name := parts.getLastD ""
  if strLower (pySuffix name) ∉ WATCH_EXTENSIONS then false
  else
    let first_part := parts.headD ""
    if first_part ∉ WATCH_PATTERNS ∧ relPathStr parts ∉ WATCH_PATTERNS then false
    else if parts.any (fun part => strStartsWith part ".") then false
    else if strEndsWith name "~" || strStartsWith name ".#" then false
    else true

/-! ## The event handler (`BuildHandler.on_any_event`) and dispatch -/

/-- The kind of a watchdog event; `other` stands for every class that
is neither `FileModifiedEvent` nor `FileCreatedEvent`. -/
inductive EventKind where
  | created
  | modified
  | other
  deriving DecidableEq

/-- A filesystem event as the handler sees it: directory flag, event
class, and the `src_path` segments relative to `PROJECT_DIR`. -/
structure FsEvent where
  isDirectory : Bool
  kind : EventKind
  parts : List String

/-- `BuildHandler`'s mutable state: `self.last_build_time`
(initialised to `0`). -/
structure HandlerState where
  last_build_time : ℚ

/-- The observable outcome of `on_any_event`: the `check_assets`
argument `run_build` was called with (`none` when no build was run)
and the handler state afterwards. -/
structure OnEventOut where
  buildRun : Option Bool
  state : HandlerState

/-- `BuildHandler.on_any_event(event)` at wall-clock time `now`:
ignore directories and non-modify/create events, apply
`should_trigger_build`, debounce against `last_build_time`, then
update the timestamp and call `run_build()` (whose `check_assets`
parameter defaults to `False`). -/
def on_any_event (st : HandlerState) (e : FsEvent) (now : ℚ) : OnEventOut :=
  if e.isDirectory then ⟨none, st⟩
  else if e.kind = .other then ⟨none, st⟩
  else if ¬ should_trigger_build e.parts then ⟨none, st⟩
  else if now - st.last_build_time < DEBOUNCE_SECONDS then ⟨none, st⟩
  else ⟨some false, ⟨now⟩⟩

/-- Fold `on_any_event` over a timed event sequence, returning the
times at which a build was run. -/
def processEvents (st : HandlerState) : List (FsEvent × ℚ) → List ℚ
  | [] => []
  | (e, t) :: rest =>
      let out := on_any_event st e t
      (match out.buildRun with
       | some _ => [t]
       | none => []) ++ processEvents out.state rest

/-- One keyboard command of `main`'s loop. -/
inductive Action where
  | build (check_assets : Bool)
  | assetCheck
  | decompose
  | quit
  deriving DecidableEq

/-- The keyboard dispatch of `main`: `key.lower()` selects
`run_build()` / `verify_assets()` / `run_decompose()` / quit. -/
def dispatchKey (key : Char) : Option Action :=
  let kl := key.toLower
  if kl = 'b' then some (.build false)
  else if kl = 'a' then some .assetCheck
  else if kl = 'd' then some .decompose
  else if kl = 'q' then some .quit
  else none

/-- The URLs listed (one indented line each) in a printed
transcript. -/
def urlLines (ms : List Msg) : List String :=
  ms.filterMap (fun m =>
    match m with
    | .urlLine u => some u
    | _ => none)

/-- A concrete manifest for instantiating theorems: version token
`"v1"`, two asset URLs. -/
def sampleManifest : Json :=
  .obj [("exported_at", .str "v1"),
        ("assets", .arr [.str "https://g.supabase.co/a.png",
                         .str "https://g.supabase.co/b.png"])]

/-- `sampleManifest` with a different version token. -/
def sampleManifestV2 : Json :=
  .obj [("exported_at", .str "v2"),
        ("assets", .arr [.str "https://g.supabase.co/a.png",
                         .str "https://g.supabase.co/b.png"])]

/-! ## Theorems -/

mutual

theorem mem_gather_iff (s : String) :
    ∀ (j : Json), s ∈ gather_asset_urls j ↔ UrlAt s j
  | .null => by
      rw [gather_asset_urls]
      simp only [List.not_mem_nil, false_iff]
      intro h; cases h
  | .bool b => by
      rw [gather_asset_urls]
      simp only [List.not_mem_nil, false_iff]
      intro h; cases h
  | .num n => by
      rw [gather_asset_urls]
      simp only [List.not_mem_nil, false_iff]
      intro h; cases h
  | .str t => by
      rw [gather_asset_urls]
      by_cases hq : isAssetUrl t = true
      · simp only [hq, if_true, List.mem_singleton]
        constructor
        · intro h; subst h; exact UrlAt.str hq
        · intro h; cases h; rfl
      · simp only [hq, if_false, Bool.false_eq_true, List.not_mem_nil, false_iff]
        intro h
        cases h with
        | str ha => exact absurd ha hq
  | .arr items => by
      rw [gather_asset_urls, mem_gatherList_iff s items]
      constructor
      · rintro ⟨j, hj, h⟩; exact UrlAt.arr hj h
      · intro h; cases h with
        | arr hj h => exact ⟨_, hj, h⟩
  | .obj fields => by
      rw [gather_asset_urls, mem_gatherFields_iff s fields]
      constructor
      · rintro ⟨k, v, hkv, hk, h⟩; exact UrlAt.obj hkv hk h
      · intro h; cases h with
        | obj hkv hk h => exact ⟨_, _, hkv, hk, h⟩

theorem mem_gatherList_iff (s : String) :
    ∀ (xs : List Json), s ∈ gatherList xs ↔ ∃ j ∈ xs, UrlAt s j
  | [] => by
      rw [gatherList]
      simp
  | j :: rest => by
      rw [gatherList]
      rw [List.mem_append, mem_gather_iff s j, mem_gatherList_iff s rest]
      constructor
      · rintro (h | ⟨j', hj', h⟩)
        · exact ⟨j, List.mem_cons_self j rest, h⟩
        · exact ⟨j', List.mem_cons_of_mem j hj', h⟩
      · rintro ⟨j', hj', h⟩
        rcases List.mem_cons.mp hj' with h1 | h1
        · subst h1; exact Or.inl h
        · exact Or.inr ⟨j', h1, h⟩

theorem mem_gatherFields_iff (s : String) :
    ∀ (fs : List (String × Json)),
      s ∈ gatherFields fs ↔ ∃ k v, (k, v) ∈ fs ∧ k ≠ "schema_docs" ∧ UrlAt s v
  | [] => by
      rw [gatherFields]
      simp
  | (k, v) :: rest => by
      rw [gatherFields]
      rw [List.mem_append, mem_gatherFields_iff s rest]
      by_cases hk : k = "schema_docs"
      · simp only [hk, if_true]
        constructor
        · rintro (h | ⟨k', v', hkv, hk', h⟩)
          · exact absurd h (List.not_mem_nil s)
          · exact ⟨k', v', List.mem_cons_of_mem _ hkv, hk', h⟩
        · rintro ⟨k', v', hkv, hk', h⟩
          rcases List.mem_cons.mp hkv with h1 | h1
          · exact absurd (congrArg Prod.fst h1) (by simpa [hk] using hk')
          · exact Or.inr ⟨k', v', h1, hk', h⟩
      · simp only [hk, if_false]
        rw [mem_gather_iff s v]
        constructor
        · rintro (h | ⟨k', v', hkv, hk', h⟩)
          · exact ⟨k, v, List.mem_cons_self _ rest, hk, h⟩
          · exact ⟨k', v', List.mem_cons_of_mem _ hkv, hk', h⟩
        · rintro ⟨k', v', hkv, hk', h⟩
          rcases List.mem_cons.mp hkv with h1 | h1
          · rcases Prod.mk.injEq .. ▸ h1 with ⟨rfl, rfl⟩
            · exact Or.inl h
          · exact Or.inr ⟨k', v', h1, hk', h⟩

end

theorem mem_asset_url_set_iff (s : String) (j : Json) :
    s ∈ asset_url_set j ↔ UrlAt s j := by
  rw [asset_url_set, List.mem_dedup, mem_gather_iff]

theorem asset_url_set_nodup (j : Json) : (asset_url_set j).Nodup :=
  List.nodup_dedup _

theorem mem_sorted_asset_urls (u : String) (m : Json) :
    u ∈ sorted_asset_urls m ↔ u ∈ gather_asset_urls m := by
  rw [sorted_asset_urls, List.mem_insertionSort, asset_url_set, List.mem_dedup]

theorem sorted_asset_urls_eq_nil (m : Json) :
    sorted_asset_urls m = [] ↔ gather_asset_urls m = [] := by
  rw [List.eq_nil_iff_forall_not_mem, List.eq_nil_iff_forall_not_mem]
  constructor
  · intro h u hu
    exact h u ((mem_sorted_asset_urls u m).mpr hu)
  · intro h u hu
    exact h u ((mem_sorted_asset_urls u m).mp hu)

theorem verify_assets_fetchFail (p : String → Bool) (c : Cache) :
    verify_assets none p c = ⟨false, c, [], [], [Msg.fetchFailed]⟩ := rfl

theorem verify_assets_hit {c : Cache} {cb : List String} (m : Json) (p : String → Bool)
    (hcb : c.bad_urls = some cb)
    (hbeq : optBeq c.exported_at (jsonGet m "exported_at") = true) :
    verify_assets (some m) p c =
      if cb = [] then ⟨true, c, [], cb, []⟩
      else ⟨false, c, [], cb, badReport Msg.cachedFailedHeader cb⟩ := by
  rw [verify_assets]
  rw [hcb]
  simp only [hbeq, if_true]

theorem verify_assets_miss {c : Cache} (m : Json) (p : String → Bool)
    (h : c.bad_urls = none ∨ optBeq c.exported_at (jsonGet m "exported_at") = false) :
    verify_assets (some m) p c = verifyFresh m (jsonGet m "exported_at") p c := by
  rw [verify_assets]
  match hcb : c.bad_urls with
  | none => rfl
  | some cb =>
      rcases h with h | h
      · rw [hcb] at h; cases h
      · simp only [h, Bool.false_eq_true, if_false]

theorem verifyFresh_probed_of_mem {u : String} {m : Json}
    (e : Option Json) (p : String → Bool) (c : Cache)
    (hu : u ∈ gather_asset_urls m) :
    u ∈ (verifyFresh m e p c).probed := by
  have hne : ¬ sorted_asset_urls m = [] := by
    intro hnil
    rw [sorted_asset_urls_eq_nil] at hnil
    rw [hnil] at hu
    exact List.not_mem_nil u hu
  rw [verifyFresh]
  simp only [hne, if_false]
  split <;> exact (mem_sorted_asset_urls u m).mpr hu

/-- C6: if the manifest fetch fails, `verify_assets` returns `False`
immediately, performs no URL probes, leaves the cache entry unchanged,
and reports the failure. -/
theorem fetch_failure_fails_closed (p : String → Bool) (c : Cache) :
    (verify_assets none p c).result = false ∧
    (verify_assets none p c).probed = [] ∧
    (verify_assets none p c).cache = c ∧
    Msg.fetchFailed ∈ (verify_assets none p c).output :=
  ⟨rfl, rfl, rfl, List.mem_singleton.mpr rfl⟩

/-- C7: on a cache miss, if the URL set extracted from a successfully
fetched manifest is empty, `verify_assets` returns `False` (reporting
a hard failure, not a silent success). -/
theorem empty_url_set_fails (m : Json) (p : String → Bool) (c : Cache)
    (hmiss : c.bad_urls = none ∨ optBeq c.exported_at (jsonGet m "exported_at") = false)
    (hempty : gather_asset_urls m = []) :
    (verify_assets (some m) p c).result = false ∧
    Msg.noUrls ∈ (verify_assets (some m) p c).output := by
  rw [verify_assets_miss m p hmiss, verifyFresh]
  have hnil : sorted_asset_urls m = [] := (sorted_asset_urls_eq_nil m).mpr hempty
  simp [hnil]

theorem empty_url_set_fails_witness :
    (verify_assets (some (Json.obj [("exported_at", Json.str "v1")]))
        (fun _ => true) initialCache).result = false ∧
    Msg.noUrls ∈ (verify_assets (some (Json.obj [("exported_at", Json.str "v1")]))
        (fun _ => true) initialCache).output :=
  empty_url_set_fails _ _ _ (Or.inl rfl) (by decide)

/-- C9: a decompose request with a missing target artifact is refused
with the dedicated precondition outcome, independently of whatever a
child process would have done (none is spawned), and that outcome is
distinct from every `BuildResult`-style failure outcome. -/
theorem decompose_missing_artifact_refused (proc proc' : ProcOutcome) (stderr : String) :
    run_decompose false proc = .refusedMissingArtifact ∧
    run_decompose false proc = run_decompose false proc' ∧
    DecomposeOutcome.refusedMissingArtifact ≠ .failed stderr ∧
    DecomposeOutcome.refusedMissingArtifact ≠ .timedOut := by
  refine ⟨rfl, rfl, ?_, ?_⟩ <;> intro h <;> cases h

theorem decompose_missing_artifact_refused_witness :
    run_decompose false ProcOutcome.timedOut = .refusedMissingArtifact :=
  (decompose_missing_artifact_refused ProcOutcome.timedOut .procError "").1

/-- C3: `check_url` classifies reachability from the HEAD outcome: a
405 HEAD error falls through to the GET probe whose status decides the
result, any other HEAD error status or network-level failure is
unreachable with no GET attempted, and a success status below 400 from
either probe is reachable. -/
theorem check_url_classification (s c' : Nat) (g : ProbeOutcome) :
    (s < 400 → check_url (.ok s) g = (true, false)) ∧
    (¬ s < 400 → check_url (.ok s) g = (false, false)) ∧
    (c' ≠ 405 → check_url (.httpError c') g = (false, false)) ∧
    check_url .failed g = (false, false) ∧
    check_url (.httpError 405) (.ok s) = (decide (s < 400), true) ∧
    check_url (.httpError 405) (.httpError c') = (false, true) ∧
    check_url (.httpError 405) .failed = (false, true) := by
  refine ⟨?_, ?_, ?_, rfl, rfl, rfl, rfl⟩
  · intro h; simp [check_url, h]
  · intro h; simp [check_url, h]
  · intro h; simp [check_url, h]

theorem on_any_event_debounced {st : HandlerState} {e : FsEvent} {now : ℚ}
    (hdir : e.isDirectory = false) (hkind : e.kind ≠ .other)
    (hfilter : should_trigger_build e.parts = true)
    (hdb : now - st.last_build_time < DEBOUNCE_SECONDS) :
    on_any_event st e now = ⟨none, st⟩ := by
  rw [on_any_event]
  simp [hdir, hkind, hfilter, hdb]

theorem on_any_event_fires {st : HandlerState} {e : FsEvent} {now : ℚ}
    (hdir : e.isDirectory = false) (hkind : e.kind ≠ .other)
    (hfilter : should_trigger_build e.parts = true)
    (hdb : ¬ now - st.last_build_time < DEBOUNCE_SECONDS) :
    on_any_event st e now = ⟨some false, ⟨now⟩⟩ := by
  rw [on_any_event]
  simp [hdir, hkind, hfilter, hdb]

/-- C2: an accepted event at time `now` runs no build and leaves
`last_build_time` unchanged when `now - last_build_time` is below the
1.0 window, and otherwise sets `last_build_time := now` and runs the
build; consequently, for accepted events at t = 0, 0.5 and 1.1 (the
first being past the window), builds run exactly at t = 0 and
t = 1.1. -/
theorem debounce_window (st : HandlerState) (e : FsEvent) (now : ℚ)
    (hdir : e.isDirectory = false) (hkind : e.kind ≠ .other)
    (hfilter : should_trigger_build e.parts = true) :
    (now - st.last_build_time < DEBOUNCE_SECONDS →
        on_any_event st e now = ⟨none, st⟩) ∧
    (¬ now - st.last_build_time < DEBOUNCE_SECONDS →
        on_any_event st e now = ⟨some false, ⟨now⟩⟩) ∧
    (st.last_build_time ≤ -1 →
        processEvents st [(e, 0), (e, 1/2), (e, 11/10)] = [0, 11/10]) := by
  refine ⟨fun h => on_any_event_debounced hdir hkind hfilter h,
          fun h => on_any_event_fires hdir hkind hfilter h, fun hl => ?_⟩
  have h0 : ¬ ((0 : ℚ) - st.last_build_time < DEBOUNCE_SECONDS) := by
    rw [DEBOUNCE_SECONDS]; push_neg; linarith
  have h1 : (1/2 : ℚ) - (HandlerState.mk 0).last_build_time < DEBOUNCE_SECONDS := by
    rw [DEBOUNCE_SECONDS]; norm_num
  have h2 : ¬ ((11/10 : ℚ) - (HandlerState.mk 0).last_build_time < DEBOUNCE_SECONDS) := by
    rw [DEBOUNCE_SECONDS]; push_neg; norm_num
  rw [processEvents, on_any_event_fires hdir hkind hfilter h0]
  rw [processEvents, on_any_event_debounced hdir hkind hfilter h1]
  rw [processEvents, on_any_event_fires hdir hkind hfilter h2]
  rw [processEvents]
  rfl

theorem debounce_window_witness :
    processEvents ⟨-1⟩
      [(⟨false, .modified, ["src", "a.lua"]⟩, 0),
       (⟨false, .modified, ["src", "a.lua"]⟩, 1/2),
       (⟨false, .modified, ["src", "a.lua"]⟩, 11/10)] = [0, 11/10] :=
  (debounce_window ⟨-1⟩ ⟨false, .modified, ["src", "a.lua"]⟩ 0
      rfl (by decide) (by decide)).2.2 (le_refl (-1 : ℚ))

/-- C8: `should_trigger_build` accepts exactly when the
case-insensitive suffix is a watched extension, the first relative
segment or the full relative path is in the watch list, no segment
starts with `.`, and the file name has neither a trailing `~` nor a
leading `.#` marker — so each of the claim's reject rules holds
regardless of the other attributes, and everything else is accepted.
A pure function of the path segments. -/
theorem should_trigger_build_characterization (parts : List String) :
    should_trigger_build parts = true ↔
      (strLower (pySuffix (parts.getLastD "")) ∈ WATCH_EXTENSIONS ∧
       (parts.headD "" ∈ WATCH_PATTERNS ∨ relPathStr parts ∈ WATCH_PATTERNS) ∧
       (∀ part ∈ parts, strStartsWith part "." = false) ∧
       strEndsWith (parts.getLastD "") "~" = false ∧
       strStartsWith (parts.getLastD "") ".#" = false) := by
  rw [should_trigger_build]
  by_cases hA : strLower (pySuffix (parts.getLastD "")) ∉ WATCH_EXTENSIONS
  · rw [if_pos hA]
    simp only [Bool.false_eq_true, false_iff]
    rintro ⟨hext, -⟩
    exact hA hext
  · rw [if_neg hA]
    by_cases hB : parts.headD "" ∉ WATCH_PATTERNS ∧ relPathStr parts ∉ WATCH_PATTERNS
    · rw [if_pos hB]
      simp only [Bool.false_eq_true, false_iff]
      rintro ⟨-, hloc, -⟩
      rcases hloc with h | h
      · exact hB.1 h
      · exact hB.2 h
    · rw [if_neg hB]
      by_cases hC : (parts.any fun part => strStartsWith part ".") = true
      · rw [if_pos hC]
        simp only [Bool.false_eq_true, false_iff]
        rintro ⟨-, -, hseg, -⟩
        rcases List.any_eq_true.mp hC with ⟨part, hmem, hpred⟩
        rw [hseg part hmem] at hpred
        cases hpred
      · rw [if_neg hC]
        by_cases hD : (strEndsWith (parts.getLastD "") "~"
            || strStartsWith (parts.getLastD "") ".#") = true
        · rw [if_pos hD]
          simp only [Bool.false_eq_true, false_iff]
          rintro ⟨-, -, -, h4, h5⟩
          rcases (by simpa using hD :
              strEndsWith (parts.getLastD "") "~" = true ∨
              strStartsWith (parts.getLastD "") ".#" = true) with h | h
          · rw [h4] at h; cases h
          · rw [h5] at h; cases h
        · rw [if_neg hD]
          simp only [true_iff]
          obtain ⟨hx, hy⟩ : strEndsWith (parts.getLastD "") "~" = false ∧
              strStartsWith (parts.getLastD "") ".#" = false := by
            simpa [not_or] using hD
          refine ⟨not_not.mp hA, ?_, ?_, hx, hy⟩
          · rcases not_and_or.mp hB with h | h
            · exact Or.inl (not_not.mp h)
            · exact Or.inr (not_not.mp h)
          · intro part hmem
            by_contra hne
            exact hC (List.any_eq_true.mpr ⟨part, hmem, by simpa using hne⟩)

theorem should_trigger_build_characterization_witness :
    should_trigger_build ["src", "a.lua"] = true :=
  (should_trigger_build_characterization ["src", "a.lua"]).mpr (by decide)

/-- C10: no reachable `run_build` call gates on asset verification:
the keyboard dispatch and the event handler only ever request a build
with `check_assets = False`, and an ungated `run_build` neither
consults `verify_assets` nor probes any URL, so verification runs only
through the manual asset-check command. -/
theorem builds_never_gated (key : Char) (a : Bool)
    (st : HandlerState) (e : FsEvent) (now : ℚ) (a' : Bool)
    (fetch : Option Json) (p : String → Bool) (c : Cache) (proc : ProcOutcome) :
    (dispatchKey key = some (.build a) → a = false) ∧
    ((on_any_event st e now).buildRun = some a' → a' = false) ∧
    (run_build false fetch p c proc).verifyConsulted = false ∧
    (run_build false fetch p c proc).probed = [] ∧
    (dispatchKey key = some .assetCheck → key.toLower = 'a') := by
  refine ⟨?_, ?_, rfl, rfl, ?_⟩
  · intro h
    rw [dispatchKey] at h
    split_ifs at h
    all_goals simp_all
  · intro h
    rw [on_any_event] at h
    split_ifs at h
    all_goals simp_all
  · intro h
    rw [dispatchKey] at h
    split_ifs at h with h1 h2
    all_goals simp_all

theorem builds_never_gated_witness :
    false = false ∧
    (run_build false none (fun _ => true) initialCache (.exited 0 "")).verifyConsulted = false :=
  ⟨(builds_never_gated 'b' false ⟨0⟩ ⟨false, .modified, []⟩ 0 false
      none (fun _ => true) initialCache (.exited 0 "")).1 (by decide),
   (builds_never_gated 'b' false ⟨0⟩ ⟨false, .modified, []⟩ 0 false
      none (fun _ => true) initialCache (.exited 0 "")).2.2.1⟩

theorem urlLines_append (a b : List Msg) :
    urlLines (a ++ b) = urlLines a ++ urlLines b :=
  List.filterMap_append a b _

theorem urlLines_map_urlLine (l : List String) :
    urlLines (l.map Msg.urlLine) = l := by
  induction l with
  | nil => rfl
  | cons x xs ih =>
      simp only [List.map_cons, urlLines, List.filterMap_cons] at ih ⊢
      rw [ih]

theorem urlLines_cons_of_not_urlLine (m : Msg) (ms : List Msg)
    (hm : ∀ u, m ≠ Msg.urlLine u) :
    urlLines (m :: ms) = urlLines ms := by
  rw [urlLines, urlLines, List.filterMap_cons]
  cases m <;> first | rfl | exact absurd rfl (hm _)

theorem urlLines_badReport (hdr : Nat → Msg) (bad : List String)
    (hh : ∀ n u, hdr n ≠ Msg.urlLine u) :
    urlLines (badReport hdr bad) = bad.take 10 := by
  rw [badReport, urlLines_append, urlLines_cons_of_not_urlLine _ _ (hh _),
    urlLines_map_urlLine]
  by_cases h10 : 10 < bad.length
  · rw [if_pos h10]
    simp [urlLines]
  · rw [if_neg h10]
    simp [urlLines]

theorem moreLine_mem_badReport (hdr : Nat → Msg) (bad : List String) (k : Nat)
    (hh : ∀ n k', hdr n ≠ Msg.moreLine k') :
    (Msg.moreLine k ∈ badReport hdr bad ↔ 10 < bad.length ∧ k = bad.length - 10) := by
  rw [badReport, List.mem_append]
  constructor
  · rintro (h | h)
    · rcases List.mem_cons.mp h with h | h
      · exact absurd h.symm (hh _ _)
      · rcases List.mem_map.mp h with ⟨u, -, hu⟩
        cases hu
    · by_cases h10 : 10 < bad.length
      · rw [if_pos h10] at h
        have hk := List.mem_singleton.mp h
        rw [Msg.moreLine.injEq] at hk
        exact ⟨h10, hk⟩
      · rw [if_neg h10] at h
        cases h
  · rintro ⟨h10, rfl⟩
    right
    rw [if_pos h10]
    exact List.mem_singleton.mpr rfl

theorem urlLines_probeLoop (p : String → Bool) (t : Nat) :
    ∀ (i : Nat) (us : List String), urlLines (probeLoop p t i us).2 = []
  | _, [] => rfl
  | i, u :: rest => by
      simp only [probeLoop]
      rw [urlLines_append, urlLines_probeLoop p t (i + 1) rest]
      by_cases hmod : i % 100 = 0
      · rw [if_pos hmod]; rfl
      · rw [if_neg hmod]; rfl

theorem moreLine_not_mem_probeLoop (p : String → Bool) (t k : Nat) :
    ∀ (i : Nat) (us : List String), Msg.moreLine k ∉ (probeLoop p t i us).2
  | _, [] => List.not_mem_nil _
  | i, u :: rest => by
      simp only [probeLoop]
      rw [List.mem_append]
      rintro (h | h)
      · by_cases hmod : i % 100 = 0
        · rw [if_pos hmod] at h
          cases List.mem_singleton.mp h
        · rw [if_neg hmod] at h
          cases h
      · exact moreLine_not_mem_probeLoop p t k (i + 1) rest h

theorem verifyFresh_failure_report (m : Json) (e : Option Json)
    (p : String → Bool) (c : Cache) (k : Nat)
    (hres : (verifyFresh m e p c).result = false) :
    urlLines (verifyFresh m e p c).output = (verifyFresh m e p c).offending.take 10 ∧
    (Msg.moreLine k ∈ (verifyFresh m e p c).output ↔
      (10 < (verifyFresh m e p c).offending.length ∧
        k = (verifyFresh m e p c).offending.length - 10)) := by
  rw [verifyFresh] at hres ⊢
  by_cases hnil : sorted_asset_urls m = []
  · simp only [hnil, if_true]
    simp [urlLines]
  · simp only [hnil, if_false] at hres ⊢
    by_cases hbad : (probeLoop p (sorted_asset_urls m).length 1 (sorted_asset_urls m)).1 = []
    · simp only [hbad, if_true] at hres
      cases hres
    · simp only [hbad, if_false]
      constructor
      · rw [urlLines_append, urlLines_probeLoop,
          urlLines_badReport _ _ (fun n u h => by cases h)]
        rfl
      · rw [List.mem_append]
        rw [moreLine_mem_badReport _ _ _ (fun n k' h => by cases h)]
        constructor
        · rintro (h | h)
          · exact absurd h (moreLine_not_mem_probeLoop _ _ _ _ _)
          · exact h
        · exact Or.inr

theorem verify_failure_report (fetch : Option Json) (p : String → Bool)
    (c : Cache) (k : Nat)
    (hres : (verify_assets fetch p c).result = false) :
    urlLines (verify_assets fetch p c).output =
      (verify_assets fetch p c).offending.take 10 ∧
    (Msg.moreLine k ∈ (verify_assets fetch p c).output ↔
      (10 < (verify_assets fetch p c).offending.length ∧
        k = (verify_assets fetch p c).offending.length - 10)) := by
  match fetch with
  | none =>
      rw [verify_assets_fetchFail] at hres ⊢
      refine ⟨rfl, ?_⟩
      constructor
      · intro h
        cases List.mem_singleton.mp h
      · rintro ⟨h10, -⟩
        exact absurd h10 (by simp)
  | some m =>
      match hcb : c.bad_urls with
      | some cb =>
          by_cases hbeq : optBeq c.exported_at (jsonGet m "exported_at") = true
          · rw [verify_assets_hit m p hcb hbeq] at hres ⊢
            by_cases hnil : cb = []
            · rw [if_pos hnil] at hres
              cases hres
            · rw [if_neg hnil]
              refine ⟨urlLines_badReport _ _ (fun n u h => by cases h), ?_⟩
              exact moreLine_mem_badReport _ _ _ (fun n k' h => by cases h)
          · have hmiss : c.bad_urls = none ∨
                optBeq c.exported_at (jsonGet m "exported_at") = false :=
              Or.inr ((Bool.not_eq_true _).mp hbeq)
            rw [verify_assets_miss m p hmiss] at hres ⊢
            exact verifyFresh_failure_report m _ p c k hres
      | none =>
          rw [verify_assets_miss m p (Or.inl hcb)] at hres ⊢
          exact verifyFresh_failure_report m _ p c k hres

/-- C5: a gated build request whose verification fails does not invoke
the external build tool; the `Build skipped` message is emitted, the
printed failure report lists exactly the first 10 offending URLs
(hence at most 10), and the truncation line is present precisely when
more than 10 offending URLs exist. -/
theorem gated_build_skips_and_reports (fetch : Option Json) (p : String → Bool)
    (c : Cache) (proc : ProcOutcome) (k : Nat)
    (hres : (verify_assets fetch p c).result = false) :
    (run_build true fetch p c proc).invoked = false ∧
    Msg.buildSkipped ∈ (run_build true fetch p c proc).output ∧
    urlLines (run_build true fetch p c proc).output =
      (verify_assets fetch p c).offending.take 10 ∧
    (Msg.moreLine k ∈ (run_build true fetch p c proc).output ↔
      (10 < (verify_assets fetch p c).offending.length ∧
        k = (verify_assets fetch p c).offending.length - 10)) := by
  have hrb : run_build true fetch p c proc =
      ⟨true, false, (verify_assets fetch p c).cache, (verify_assets fetch p c).probed,
        (verify_assets fetch p c).output ++ [Msg.buildSkipped], false⟩ := by
    rw [run_build]
    simp [hres]
  obtain ⟨hlines, hmore⟩ := verify_failure_report fetch p c k hres
  rw [hrb]
  refine ⟨rfl, ?_, ?_, ?_⟩
  · exact List.mem_append.mpr (Or.inr (List.mem_singleton.mpr rfl))
  · rw [urlLines_append, hlines]
    simp [urlLines]
  · rw [List.mem_append]
    constructor
    · rintro (h | h)
      · exact hmore.mp h
      · cases List.mem_singleton.mp h
    · intro h
      exact Or.inl (hmore.mpr h)

theorem gated_build_skips_and_reports_witness :
    (run_build true (some sampleManifest) (fun _ => false) initialCache
        (.exited 0 "")).invoked = false ∧
    Msg.buildSkipped ∈ (run_build true (some sampleManifest) (fun _ => false) initialCache
        (.exited 0 "")).output ∧
    urlLines (run_build true (some sampleManifest) (fun _ => false) initialCache
        (.exited 0 "")).output =
      (verify_assets (some sampleManifest) (fun _ => false) initialCache).offending.take 10 ∧
    (Msg.moreLine 7 ∈ (run_build true (some sampleManifest) (fun _ => false) initialCache
        (.exited 0 "")).output ↔
      (10 < (verify_assets (some sampleManifest) (fun _ => false) initialCache).offending.length ∧
        7 = (verify_assets (some sampleManifest) (fun _ => false) initialCache).offending.length - 10)) :=
  gated_build_skips_and_reports (some sampleManifest) (fun _ => false) initialCache
    (.exited 0 "") 7 (by decide)

/-- C4 counterexample: the extractor collects a string whose host is
`evil.example`, not a host of the asset-hosting domain `supabase.co`
(the domain name only occurs in the URL's path), because the source
tests `"supabase.co" in value`, a substring check, not a host check.
So the extracted set is not the set of strings with an HTTP(S) scheme
and an asset-domain host that the claim describes. -/
theorem gather_collects_non_domain_host :
    "http://evil.example/supabase.co" ∈
        asset_url_set (Json.str "http://evil.example/supabase.co") ∧
    specQualifies "http://evil.example/supabase.co" = false := by
  decide

/-- C4 (amended): `gather_asset_urls` returns exactly the
deduplicated set of string scalars that start with `"http"` and
contain `"supabase.co"` as a substring (`isAssetUrl`), at arbitrary
nesting depth, excluding every string under a mapping key literally
named `"schema_docs"` — the condition `UrlAt`. -/
theorem asset_url_set_exact (s : String) (j : Json) :
    (s ∈ asset_url_set j ↔ UrlAt s j) ∧ (asset_url_set j).Nodup :=
  ⟨mem_asset_url_set_iff s j, asset_url_set_nodup j⟩

theorem asset_url_set_exact_witness :
    "https://g.supabase.co/x.png" ∈
      asset_url_set (Json.arr [Json.obj
        [("docs", Json.obj [("k", Json.str "https://g.supabase.co/x.png")])]]) :=
  ((asset_url_set_exact "https://g.supabase.co/x.png" _).1).mpr
    (UrlAt.arr (List.mem_cons_self _ _)
      (UrlAt.obj (List.mem_cons_self _ _) (by decide)
        (UrlAt.obj (List.mem_cons_self _ _) (by decide)
          (UrlAt.str (by decide)))))

/-- C1: for consecutive `verify_assets` calls, when the second call's
fetch succeeds with a version token Python-equal to the token the
first call stored and a cached bad-URL set exists, the second call
probes no URL and returns `True` iff the cached bad-URL set is empty;
when the token differs, every extracted URL of the new manifest is
re-probed. -/
theorem verify_cache_hit_and_invalidation
    (fetch1 : Option Json) (p1 : String → Bool) (c0 : Cache)
    (m2 : Json) (p2 : String → Bool) (cb : List String) (u : String)
    (h1 : (verify_assets fetch1 p1 c0).cache.bad_urls = some cb) :
    (optBeq (verify_assets fetch1 p1 c0).cache.exported_at (jsonGet m2 "exported_at") = true →
        (verify_assets (some m2) p2 (verify_assets fetch1 p1 c0).cache).probed = [] ∧
        ((verify_assets (some m2) p2 (verify_assets fetch1 p1 c0).cache).result = true ↔
          cb = [])) ∧
    (optBeq (verify_assets fetch1 p1 c0).cache.exported_at (jsonGet m2 "exported_at") = false →
        u ∈ gather_asset_urls m2 →
        u ∈ (verify_assets (some m2) p2 (verify_assets fetch1 p1 c0).cache).probed) := by
  constructor
  · intro hbeq
    rw [verify_assets_hit m2 p2 h1 hbeq]
    by_cases hcb : cb = []
    · simp [hcb]
    · simp [hcb]
  · intro hbeq hu
    rw [verify_assets_miss m2 p2 (Or.inr hbeq)]
    exact verifyFresh_probed_of_mem _ _ _ hu

theorem verify_cache_hit_and_invalidation_witness :
    ((verify_assets (some sampleManifest) (fun _ => false)
        ((verify_assets (some sampleManifest) (fun _ => true) initialCache).cache)).probed = [] ∧
     ((verify_assets (some sampleManifest) (fun _ => false)
        ((verify_assets (some sampleManifest) (fun _ => true) initialCache).cache)).result = true ↔
       ([] : List String) = [])) ∧
    ("https://g.supabase.co/a.png" ∈
      (verify_assets (some sampleManifestV2) (fun _ => false)
        ((verify_assets (some sampleManifest) (fun _ => true) initialCache).cache)).probed) :=
  ⟨(verify_cache_hit_and_invalidation (some sampleManifest) (fun _ => true) initialCache
      sampleManifest (fun _ => false) [] "https://g.supabase.co/a.png" (by decide)).1 (by decide),
   (verify_cache_hit_and_invalidation (some sampleManifest) (fun _ => true) initialCache
      sampleManifestV2 (fun _ => false) [] "https://g.supabase.co/a.png" (by decide)).2
      (by decide) (by decide)⟩

theorem check_url_classification_witness :
    check_url (.ok 200) .failed = (true, false) ∧
    check_url (.ok 500) .failed = (false, false) ∧
    check_url (.httpError 404) .failed = (false, false) :=
  ⟨(check_url_classification 200 404 .failed).1 (by decide),
   (check_url_classification 500 404 .failed).2.1 (by decide),
   (check_url_classification 200 404 .failed).2.2.1 (by decide)⟩

end WatchBuild
